import Mathlib

/-!
Verification of the rex command-recorder / shell-code-generator core
(`src/python/rez/rex.py`) against its natural-language specification.

The Python source is shallowly embedded: strings are `String` (scanned as
`List Char`), Python dicts are association lists (first binding wins, update
in place), raised exceptions are `Except PyErr`, and the two
`string.Template` dialects are embedded as single-pass character scanners
that implement exactly the regular expressions installed on the templates.
-/

namespace Rex

/-- The open-brace character, written via its code point. -/
def lbrace : Char := Char.ofNat 123

/-- The close-brace character, written via its code point. -/
def rbrace : Char := Char.ofNat 125

/-- `[_a-z]` under `re.IGNORECASE`: underscore or an ASCII letter. -/
def idStart (c : Char) : Bool :=
  c = '_' || ('a' ≤ c && c ≤ 'z') || ('A' ≤ c && c ≤ 'Z')

/-- `[_a-z0-9]` under `re.IGNORECASE`. -/
def idCont (c : Char) : Bool :=
  idStart c || ('0' ≤ c && c ≤ '9')

/-- A character allowed anywhere inside the braced-identifier body of
`ATTR_REG_STR = ([_a-z][_a-z0-9]*)([._a-z][_a-z0-9]*)*`: identifier
characters plus the dot. -/
def isBracedChar (c : Char) : Bool :=
  idCont c || c = '.'

/-- `[_A-Z]`. -/
def capStart (c : Char) : Bool :=
  c = '_' || ('A' ≤ c && c ≤ 'Z')

/-- `[_A-Z0-9]`. -/
def capCont (c : Char) : Bool :=
  capStart c || ('0' ≤ c && c ≤ '9')

/-- Recognizer for `([._a-z][_a-z0-9]*)*` consuming the whole input; the
caller has already stripped the greedy `[_a-z0-9]*` run, so it strips the
run itself after each segment head. -/
def segsMatch : List Char → Bool
  | [] => true
  | c :: rest =>
    if c = '.' || idStart c then segsMatch (rest.dropWhile idCont) else false
termination_by l => l.length
decreasing_by
  simp only [List.length_cons]
  have h := (List.dropWhile_sublist (l := rest) idCont).length_le
  omega

/-- Full-string match of `ATTR_REG_STR` (the braced-identifier body). -/
def bracedFullMatch : List Char → Bool
  | [] => false
  | c :: rest => idStart c && segsMatch (rest.dropWhile idCont)

/-- Full-string match of `[_A-Z][_A-Z0-9]*`. -/
def capsFullMatch : List Char → Bool
  | [] => false
  | c :: rest => capStart c && rest.all capCont

/-- `re.match` of `core + '$'` against a whole string: a bare `'$'` matches
at the end of the string or just before one trailing newline. -/
def reDollarFullMatch (core : List Char → Bool) (l : List Char) : Bool :=
  core l || (l.getLast? = some '\n' && core l.dropLast)

/-- `AttrDict.ATTR_REG.match(key)` (pattern `ATTR_REG_STR + '$'`,
`re.IGNORECASE`). -/
def attrRegMatch (key : String) : Bool :=
  reDollarFullMatch bracedFullMatch key.data

/-- `RoutingDict.ALL_CAPS.match(key)` (pattern `[_A-Z][_A-Z0-9]*$`). -/
def allCapsMatch (key : String) : Bool :=
  reDollarFullMatch capsFullMatch key.data

/-- Python exceptions raised by the embedded code. -/
inductive PyErr where
  | keyError (key : String)
  | typeError
  | valueError
  | attributeError
  | notImplementedError
deriving DecidableEq, Repr

/-- Values stored in the custom namespace / routing-dict variable scope:
plain strings, lists of strings, or attribute-bearing objects. -/
inductive RexVal where
  | vstr (s : String)
  | vlist (xs : List String)
  | obj (attrs : List (String × RexVal))

/-- Association-list lookup, first binding wins (a Python dict, keys kept
unique by `aset`). -/
def alookup {β : Type} : List (String × β) → String → Option β
  | [], _ => none
  | (k, v) :: rest, key => if k = key then some v else alookup rest key

/-- Dict update: replace the binding if the key is present, else append. -/
def aset {β : Type} : List (String × β) → String → β → List (String × β)
  | [], key, v => [(key, v)]
  | (k, w) :: rest, key, v =>
    if k = key then (key, v) :: rest else (k, w) :: aset rest key v

/-- Dict removal of a present key. -/
def aerase {β : Type} : List (String × β) → String → List (String × β)
  | [], _ => []
  | (k, w) :: rest, key => if k = key then rest else (k, w) :: aerase rest key

/-- Python `getattr` restricted to the attribute tables of the objects the
custom namespace stores.  Strings and lists expose no attributes under this
model: the dotted identifiers the code looks up never name built-in string
or list methods. -/
def pyGetattr : RexVal → String → Option RexVal
  | .obj attrs, name => alookup attrs name
  | _, _ => none

/-- Python `'%s' % value`: the string itself for strings.  The repr of a
non-string object embeds its memory address and is not modelled (no claim
exercises it). -/
def pyStr : RexVal → String
  | .vstr s => s
  | .vlist _ => "<list>"
  | .obj _ => "<object>"

/-- `key.split('.')` — Python `str.split` with an explicit separator:
no collapsing, `""` splits to `[""]`. -/
def splitDotsAux (cur : List Char) : List Char → List String
  | [] => [String.mk cur.reverse]
  | c :: rest =>
    if c = '.' then String.mk cur.reverse :: splitDotsAux [] rest
    else splitDotsAux (c :: cur) rest

def splitDots (s : String) : List String :=
  splitDotsAux [] s.data

/-- Python `sep.join(xs)`. -/
def joinSep (sep : String) : List String → String
  | [] => ""
  | [x] => x
  | x :: y :: xs => x ++ sep ++ joinSep sep (y :: xs)

/-- The dictionary for attribute-based lookups of objects
(`class AttrDict`); `data` is its backing map. -/
structure AttrDict where
  data : List (String × RexVal)

/-- The `while parts:` loop of `AttrDict.__getitem__`: probe the map with
the dot-join of `parts`; on a miss pop the last segment onto the `attrs`
stash and retry.  The loop pops from the end of `parts`, so it is run here
over the reversed segment list (`rev = parts.reverse`): the head of `rev`
is the segment popped next.  Returns the found object and the stash, or
`none` when no prefix hits. -/
def lookupPrefixRev (data : List (String × RexVal)) :
    List String → List String → Option (RexVal × List String)
  | [], _ => none
  | p :: ps, attrs =>
    match alookup data (joinSep "." (p :: ps).reverse) with
    | some r => some (r, attrs)
    | none => lookupPrefixRev data ps (attrs ++ [p])

/-- The attribute walk at the end of `AttrDict.__getitem__`: the stash is
walked in the order it was collected (`for attr in attrs`), a failed
`getattr` raises `KeyError(key)`. -/
def walkAttrs (key : String) : RexVal → List String → Except PyErr RexVal
  | r, [] => .ok r
  | r, a :: rest =>
    match pyGetattr r a with
    | some r2 => walkAttrs key r2 rest
    | none => .error (.keyError key)

/-- `AttrDict.__getitem__`. -/
def AttrDict.getitem (d : AttrDict) (key : String) : Except PyErr RexVal :=
  match lookupPrefixRev d.data (splitDots key).reverse [] with
  | none => .error (.keyError key)
  | some (r, attrs) => walkAttrs key r attrs

/-- A Python object used as a dict key: a string, or anything else
(`basestring` check). -/
inductive PyKey where
  | str (s : String)
  | nonString
deriving DecidableEq, Repr

/-- `AttrDict.__setitem__`: `TypeError` for non-string keys, `ValueError`
when `ATTR_REG` does not match, otherwise store. -/
def AttrDict.setitem (d : AttrDict) (key : PyKey) (value : RexVal) :
    Except PyErr AttrDict :=
  match key with
  | .nonString => .error .typeError
  | .str s =>
    if attrRegMatch s then .ok ⟨aset d.data s value⟩ else .error .valueError

/-!
## The custom-template engine

`CustomExpand` is a `string.Template` whose pattern is overridden to

    (?<![$])(?:(?P<escaped>a^)|(?P<named>a^)|{(?P<braced>ATTR_REG_STR)}|(?P<invalid>a^))

Only the `braced` alternative can ever match (`a^` is unsatisfiable), and
the `!` delimiter does not occur in the pattern: a match is a
`{dotted.name}` group whose preceding character is not `$`.  Because `}`
is not in the braced alphabet, a match occurs at a `{` exactly when the
maximal following run of identifier-or-dot characters is nonempty, starts
with `[_A-Za-z]`, and is followed by `}`.  `safe_substitute` replaces the
match with `str(mapping[braced])`, or with `'!' + '{' + braced + '}'`
(`delimiter + braced`) when the mapping lookup raises `KeyError`; scanning
resumes after the `}` of the original string.

The scanner below implements `pattern.sub` one character at a time:
`normal prev` carries the previous original character (for the `(?<![$])`
lookbehind), `inBrace acc` means a `{` with a valid lookbehind was seen and
`acc` holds the (reversed) run read so far.  When a brace group fails
(bad first character, interrupted run, or end of input) the consumed
characters are emitted verbatim; no new match can begin inside them since
they contain no `{`, and a `{` that interrupts a run is itself preceded by
a non-`$` character, so scanning it afresh is faithful to `re.sub`'s
advance-by-one retry.
-/

/-- Scanner state for `CustomExpand.pattern.sub`. -/
inductive ScanState where
  | normal (prev : Option Char)
  | inBrace (acc : List Char)

/-- The replacement for a successfully matched braced group `name`
(`convert` inside `Template.safe_substitute`, with the custom namespace as
the mapping). -/
def bracedReplace (custom : AttrDict) (name : List Char) : List Char :=
  match custom.getitem (String.mk name) with
  | .ok v => (pyStr v).data
  | .error _ => '!' :: lbrace :: (name ++ [rbrace])

/-- `CustomExpand(template).safe_substitute(custom)`, as a single
left-to-right scan. -/
def customScan (custom : AttrDict) : ScanState → List Char → List Char
  | .normal _, [] => []
  | .inBrace acc, [] => lbrace :: acc.reverse
  | .normal prev, c :: rest =>
    if c = lbrace && prev ≠ some '$' then
      customScan custom (.inBrace []) rest
    else
      c :: customScan custom (.normal (some c)) rest
  | .inBrace acc, c :: rest =>
    if isBracedChar c then
      customScan custom (.inBrace (c :: acc)) rest
    else if c = rbrace then
      match acc.reverse with
      | b :: bs =>
        if idStart b then
          bracedReplace custom (b :: bs) ++
            customScan custom (.normal (some rbrace)) rest
        else
          lbrace :: ((b :: bs) ++ (rbrace :: customScan custom (.normal (some rbrace)) rest))
      | [] => lbrace :: rbrace :: customScan custom (.normal (some rbrace)) rest
    else if c = lbrace then
      lbrace :: (acc.reverse ++ customScan custom (.inBrace []) rest)
    else
      lbrace :: (acc.reverse ++ (c :: customScan custom (.normal (some c)) rest))

/-- `CustomExpand(value).safe_substitute(custom)`. -/
def customSafeSubst (custom : AttrDict) (value : String) : String :=
  String.mk (customScan custom (.normal none) value.data)

/-!
## The env-template engine

`EnvExpand = string.Template` with the stock pattern

    \$(?:(?P<escaped>\$)|(?P<named>[_a-z][_a-z0-9]*)|{(?P<braced>[_a-z][_a-z0-9]*)}|(?P<invalid>))

under `re.IGNORECASE`, used with `safe_substitute`: `$$` becomes `$`,
`$name` / `${name}` become `mapping[name]` when present and stay literal
otherwise, and an ill-formed delimiter (the empty `invalid` group) leaves
the `$` in place with scanning resuming right after it.
-/

/-- Scanner state for the stock `Template` pattern. -/
inductive EnvScanState where
  | top
  | dollar
  | ename (acc : List Char)
  | ebrace (acc : List Char)

/-- Finish an unbraced `$name`: substitute when the mapping has the name,
else emit the literal `$name`. -/
def envFinishName (m : List (String × String)) (acc : List Char) : List Char :=
  match alookup m (String.mk acc.reverse) with
  | some v => v.data
  | none => '$' :: acc.reverse

/-- Finish a braced `${name}`: substitute when present, else emit the
literal `${name}`. -/
def envFinishBraced (m : List (String × String)) (acc : List Char) : List Char :=
  match alookup m (String.mk acc.reverse) with
  | some v => v.data
  | none => '$' :: lbrace :: (acc.reverse ++ [rbrace])

/-- `EnvExpand(template).safe_substitute(**m)`, as a single left-to-right
scan.  A brace group whose body is invalid corresponds to the regex
matching only the `$` (empty `invalid` group); its characters contain no
`$`, so emitting them verbatim and rescanning from the interrupting
character is faithful. -/
def envScan (m : List (String × String)) : EnvScanState → List Char → List Char
  | .top, [] => []
  | .dollar, [] => ['$']
  | .ename acc, [] => envFinishName m acc
  | .ebrace acc, [] => '$' :: lbrace :: acc.reverse
  | .top, c :: rest =>
    if c = '$' then envScan m .dollar rest
    else c :: envScan m .top rest
  | .dollar, c :: rest =>
    if c = '$' then '$' :: envScan m .top rest
    else if c = lbrace then envScan m (.ebrace []) rest
    else if idStart c then envScan m (.ename [c]) rest
    else '$' :: c :: envScan m .top rest
  | .ename acc, c :: rest =>
    if idCont c then envScan m (.ename (c :: acc)) rest
    else if c = '$' then envFinishName m acc ++ envScan m .dollar rest
    else envFinishName m acc ++ (c :: envScan m .top rest)
  | .ebrace acc, c :: rest =>
    if idCont c then envScan m (.ebrace (c :: acc)) rest
    else if c = rbrace then
      match acc.reverse with
      | b :: bs =>
        if idStart b then envFinishBraced m acc ++ envScan m .top rest
        else '$' :: lbrace :: ((b :: bs) ++ (rbrace :: envScan m .top rest))
      | [] => '$' :: lbrace :: rbrace :: envScan m .top rest
    else if c = '$' then
      '$' :: lbrace :: (acc.reverse ++ envScan m .dollar rest)
    else
      '$' :: lbrace :: (acc.reverse ++ (c :: envScan m .top rest))

/-- `EnvExpand(value).safe_substitute(**m)`. -/
def envSafeSubst (m : List (String × String)) (value : String) : String :=
  String.mk (envScan m .top value.data)

/-!
## Commands and the recorder / routing namespace
-/

/-- `os.pathsep` on the POSIX platforms the module targets. -/
def os_pathsep : String := ":"

def DEFAULT_ENV_SEP_MAP : List (String × String) := [("CMAKE_MODULE_PATH", ";")]

/-- A recorded command argument: a single string or a sequence of strings
(list/tuple). -/
inductive EValue where
  | str (s : String)
  | seq (xs : List String)
deriving DecidableEq, Repr

/-- The `Command` subclasses; each constructor name is the command's
canonical lower-case dispatch name. -/
inductive Cmd where
  | setenv (key : String) (value : EValue)
  | unsetenv (key : String)
  | prependenv (key : String) (value : EValue)
  | appendenv (key : String) (value : EValue)
  | alias (key : String) (value : EValue)
  | info (value : EValue)
  | error (value : EValue)
  | comment (value : EValue)
  | source (value : EValue)
  | command (value : EValue)
deriving DecidableEq, Repr

/-- `cmd.args[0]` for the commands whose name the interpreter loop tests
(`cmd.name in ['setenv', 'prependenv', 'appendenv']`); `none` otherwise. -/
def cmdKey? : Cmd → Option String
  | .setenv k _ => some k
  | .prependenv k _ => some k
  | .appendenv k _ => some k
  | _ => none

/-- The routing namespace together with its recorder: `commands` is the
recorder's log, `vars` is the plain variable scope, which is also the
custom namespace's backing map (`self.custom.data = self.vars`). -/
structure RoutingDict where
  commands : List Cmd
  vars : List (String × RexVal)

/-- The public recorder members injected into the plain scope by
`RoutingDict.__init__` (`inspect.getmembers` yields them sorted by name;
`commands` is not a method and the underscore names are filtered out). -/
def recorderMethodNames : List String :=
  ["alias", "appendenv", "command", "comment", "error", "get_commands",
   "info", "prependenv", "reset_commands", "setenv", "source", "unsetenv"]

/-- `RoutingDict.__init__(vars)`: fresh recorder, then the recorder's
public methods are stored into the plain scope; bound methods are modelled
as opaque attribute-less objects. -/
def RoutingDict.new (vars : List (String × RexVal)) : RoutingDict :=
  { commands := [],
    vars := recorderMethodNames.foldl (fun m n => aset m n (RexVal.obj [])) vars }

/-- `RoutingDict.expand`: custom-template expansion against the custom
namespace (an `AttrDict` backed by `vars`). -/
def RoutingDict.expand (rd : RoutingDict) (value : String) : String :=
  customSafeSubst ⟨rd.vars⟩ value

/-- `CommandRecorder._expand` with the routing dict's expansion callback
installed: strings are expanded, sequences expanded element-wise. -/
def RoutingDict.expandVal (rd : RoutingDict) : EValue → EValue
  | .str s => .str (rd.expand s)
  | .seq xs => .seq (xs.map rd.expand)

/-- The DSL-visible free function `setenv(key, value)`
(`CommandRecorder.setenv`): appends one `Setenv` with the value expanded at
record time. -/
def RoutingDict.setenvCall (rd : RoutingDict) (key : String) (value : EValue) :
    RoutingDict :=
  { rd with commands := rd.commands ++ [.setenv key (rd.expandVal value)] }

/-- `RoutingDict.__setitem__`: ALL-CAPS keys route to the environment view
(`EnvironDict.__setitem__` → handle `.set` → `CommandRecorder.setenv`);
other keys are stored in the plain scope, string values being expanded
first. -/
def RoutingDict.setitem (rd : RoutingDict) (key : String) (value : EValue) :
    RoutingDict :=
  if allCapsMatch key then
    rd.setenvCall key value
  else
    { rd with
      vars := aset rd.vars key (match value with
        | .str s => .vstr (rd.expand s)
        | .seq xs => .vlist xs) }

/-!
## Interpreters
-/

/-- `CommandInterpreter._env_sep`. -/
def envSep (m : List (String × String)) (name : String) : String :=
  (alookup m name).getD os_pathsep

/-- The `if isinstance(value, (list, tuple)): value = self._env_sep(key).join(value)`
prologue shared by every setenv/prependenv/appendenv implementation. -/
def joinIfSeq (sep : String) : EValue → String
  | .str s => s
  | .seq xs => joinSep sep xs

/-- `self._set_env_vars.add(key)` on a set modelled as a duplicate-free
list. -/
def setAdd (s : List String) (k : String) : List String :=
  if k ∈ s then s else s ++ [k]

/-- The single-quote character (for Python list reprs and csh aliases). -/
def sq : Char := Char.ofNat 39

/-- `'%s' % value` for a list of plain strings (repr; escaping of special
characters inside the elements is not modelled and never exercised). -/
def pyReprStrList (xs : List String) : String :=
  "[" ++ joinSep ", " (xs.map (fun s => String.mk (sq :: (s.data ++ [sq])))) ++ "]"

/-- `'%s' % value` when the value may be a recorded string or sequence. -/
def pyFmt : EValue → String
  | .str s => s
  | .seq xs => pyReprStrList xs

/-- Shared interpreter state for the `SH`/`CSH` emitters, as initialized by
`CommandInterpreter.__init__`. -/
structure SHInterp where
  respect_parent_env : Bool
  env_sep_map : List (String × String)
  set_env_vars : List String
deriving DecidableEq, Repr

/-- `CommandInterpreter.__init__(respect_parent_env=False, env_sep_map=None)`. -/
def mkShell (respect_parent_env : Bool := false)
    (env_sep_map : List (String × String) := []) : SHInterp :=
  ⟨respect_parent_env, env_sep_map, []⟩

/-- `SH.setenv`. -/
def SH.setenv (it : SHInterp) (key : String) (value : EValue) : String :=
  let value := joinIfSeq (envSep it.env_sep_map key) value
  "export " ++ key ++ "=\"" ++ value ++ "\""

/-- `SH.unsetenv`. -/
def SH.unsetenv (key : String) : String :=
  "unset " ++ key

/-- `SH.prependenv`.  Note the orientation of the dedented conditional
block exactly as the source writes it: the branch for `$key` set exports
the bare value and the branch for `$key` unset exports the extend form. -/
def SH.prependenv (it : SHInterp) (key : String) (value : EValue) : String :=
  let sep := envSep it.env_sep_map key
  let v := joinIfSeq sep value
  if key ∈ it.set_env_vars then
    "export " ++ key ++ "=\"" ++ v ++ sep ++ "$" ++ key ++ "\""
  else if !it.respect_parent_env then
    SH.setenv it key value
  else
    "if [[ $" ++ key ++ " ]]; then\n    export " ++ key ++ "=\"" ++ v ++
      "\"\nelse\n    export " ++ key ++ "=\"" ++ v ++ sep ++ "$" ++ key ++ "\"\nfi"

/-- `SH.appendenv` (same structure as `SH.prependenv`). -/
def SH.appendenv (it : SHInterp) (key : String) (value : EValue) : String :=
  let sep := envSep it.env_sep_map key
  let v := joinIfSeq sep value
  if key ∈ it.set_env_vars then
    "export " ++ key ++ "=\"$" ++ key ++ sep ++ v ++ "\""
  else if !it.respect_parent_env then
    SH.setenv it key value
  else
    "if [[ $" ++ key ++ " ]]; then\n    export " ++ key ++ "=\"" ++ v ++
      "\"\nelse\n    export " ++ key ++ "=\"$" ++ key ++ sep ++ v ++ "\"\nfi"

/-- `SH.info`. -/
def SH.info (value : EValue) : String :=
  "echo \"" ++ pyFmt value ++ "\""

/-- `SH.error`. -/
def SH.error (value : EValue) : String :=
  "echo \"" ++ pyFmt value ++ "\" 1>&2"

/-- `SH.comment`. -/
def SH.comment (value : EValue) : String :=
  "# " ++ pyFmt value

/-- `SH.source`. -/
def SH.sourceCmd (value : EValue) : String :=
  "source \"" ++ pyFmt value ++ "\""

/-- `getattr(self, cmd.name)` followed by the call, for an `SH` instance.
`SH.alias` raises `ValueError`: its format string
`"{key}() { {value}; };\nexport -f {key};"` contains an unescaped brace, so
`str.format` fails before producing output.  No `command` method exists on
any interpreter, so that name raises `AttributeError` at the `getattr`. -/
def SH.dispatch (it : SHInterp) : Cmd → Except PyErr (Option String)
  | .setenv k v => .ok (some (SH.setenv it k v))
  | .unsetenv k => .ok (some (SH.unsetenv k))
  | .prependenv k v => .ok (some (SH.prependenv it k v))
  | .appendenv k v => .ok (some (SH.appendenv it k v))
  | .alias _ _ => .error .valueError
  | .info v => .ok (some (SH.info v))
  | .error v => .ok (some (SH.error v))
  | .comment v => .ok (some (SH.comment v))
  | .source v => .ok (some (SH.sourceCmd v))
  | .command _ => .error .attributeError

/-- `CommandInterpreter._execute` for the shell emitters: dispatch on the
command name, then record the key of setenv/prependenv/appendenv into
`_set_env_vars`, then collect the non-`None` result. -/
def shellExecuteAux (disp : SHInterp → Cmd → Except PyErr (Option String))
    (it : SHInterp) (acc : List String) : List Cmd → Except PyErr (SHInterp × List String)
  | [] => .ok (it, acc)
  | c :: rest =>
    match disp it c with
    | .error e => .error e
    | .ok line =>
      let it2 := match cmdKey? c with
        | some k => { it with set_env_vars := setAdd it.set_env_vars k }
        | none => it
      shellExecuteAux disp it2 (match line with
        | some s => acc ++ [s]
        | none => acc) rest

/-- `SH(...)._execute(commands)`: the joined emitted lines. -/
def SH.execute (it : SHInterp) (cmds : List Cmd) : Except PyErr String :=
  match shellExecuteAux SH.dispatch it [] cmds with
  | .ok (_, lines) => .ok (joinSep "\n" lines)
  | .error e => .error e

/-- `CSH.setenv`. -/
def CSH.setenv (it : SHInterp) (key : String) (value : EValue) : String :=
  let value := joinIfSeq (envSep it.env_sep_map key) value
  "setenv " ++ key ++ " \"" ++ value ++ "\""

/-- `CSH.unsetenv`. -/
def CSH.unsetenv (key : String) : String :=
  "unsetenv " ++ key

/-- `CSH.prependenv`. -/
def CSH.prependenv (it : SHInterp) (key : String) (value : EValue) : String :=
  let sep := envSep it.env_sep_map key
  let v := joinIfSeq sep value
  if key ∈ it.set_env_vars then
    "setenv " ++ key ++ "=\"" ++ v ++ sep ++ "$" ++ key ++ "\""
  else if !it.respect_parent_env then
    CSH.setenv it key value
  else
    "if ( ! $?" ++ key ++ " ) then\n    setenv " ++ key ++ " \"" ++ v ++
      "\"\nelse\n    setenv " ++ key ++ " \"" ++ v ++ sep ++ "$" ++ key ++ "\"\nendif"

/-- `CSH.appendenv`. -/
def CSH.appendenv (it : SHInterp) (key : String) (value : EValue) : String :=
  let sep := envSep it.env_sep_map key
  let v := joinIfSeq sep value
  if key ∈ it.set_env_vars then
    "setenv " ++ key ++ "=\"$" ++ key ++ sep ++ v ++ "\""
  else if !it.respect_parent_env then
    CSH.setenv it key value
  else
    "if ( ! $?" ++ key ++ " ) then\n    setenv " ++ key ++ " \"" ++ v ++
      "\"\nelse\n    setenv " ++ key ++ " \"$" ++ key ++ sep ++ v ++ "\"\nendif"

/-- `CSH.alias`. -/
def CSH.alias (key : String) (value : EValue) : String :=
  "alias " ++ key ++ " " ++ String.mk (sq :: (pyFmt value).data ++ [sq]) ++ ";"

/-- Dispatch for a `CSH` instance (info/error/comment/source inherited from
`SH`). -/
def CSH.dispatch (it : SHInterp) : Cmd → Except PyErr (Option String)
  | .setenv k v => .ok (some (CSH.setenv it k v))
  | .unsetenv k => .ok (some (CSH.unsetenv k))
  | .prependenv k v => .ok (some (CSH.prependenv it k v))
  | .appendenv k v => .ok (some (CSH.appendenv it k v))
  | .alias k v => .ok (some (CSH.alias k v))
  | .info v => .ok (some (SH.info v))
  | .error v => .ok (some (SH.error v))
  | .comment v => .ok (some (SH.comment v))
  | .source v => .ok (some (SH.sourceCmd v))
  | .command _ => .error .attributeError

/-- `CSH(...)._execute(commands)`. -/
def CSH.execute (it : SHInterp) (cmds : List Cmd) : Except PyErr String :=
  match shellExecuteAux CSH.dispatch it [] cmds with
  | .ok (_, lines) => .ok (joinSep "\n" lines)
  | .error e => .error e

/-- Python `value.split(sep)` for a nonempty separator: leftmost
non-overlapping occurrences, no collapsing. -/
def splitSepAux (c0 : Char) (ctail : List Char) (cur : List Char) :
    List Char → List String
  | [] => [String.mk cur.reverse]
  | c :: rest =>
    if (c0 :: ctail).isPrefixOf (c :: rest) then
      String.mk cur.reverse ::
        splitSepAux c0 ctail [] ((c :: rest).drop (ctail.length + 1))
    else
      splitSepAux c0 ctail (c :: cur) rest
termination_by l => l.length
decreasing_by
  · simp only [List.drop_succ_cons, List.length_cons]
    have h : (rest.drop ctail.length).length = rest.length - ctail.length :=
      List.length_drop ..
    omega
  · simp

/-- Python `value.split(sep)`.  An empty separator raises `ValueError` in
Python; every separator the module uses (`os.pathsep` or an entry of the
separator map) is nonempty, so that case is left as the identity split. -/
def splitSep (sep : String) (value : String) : List String :=
  match sep.data with
  | [] => [value]
  | c0 :: ctail => splitSepAux c0 ctail [] value.data

/-- The live in-process interpreter's state: the shared
`CommandInterpreter` attributes plus the environment mapping it mutates. -/
structure PyInterp where
  respect_parent_env : Bool
  env_sep_map : List (String × String)
  set_env_vars : List String
  environ : List (String × String)
deriving DecidableEq, Repr

/-- `Python.__init__(override_parent_env=True, environ=None)`: forwards the
flag positionally into `respect_parent_env` and leaves `env_sep_map` empty
(the parameter is not forwarded). -/
def Python.new (override_parent_env : Bool := true)
    (environ : List (String × String)) : PyInterp :=
  ⟨override_parent_env, [], [], environ⟩

/-- `Python._expand`: env-template expansion against the current environ. -/
def Python.expand (st : PyInterp) (value : String) : String :=
  envSafeSubst st.environ value

/-- `Python.setenv`. -/
def Python.setenv (st : PyInterp) (key : String) (value : EValue) : PyInterp :=
  let value := joinIfSeq (envSep st.env_sep_map key) value
  { st with environ := aset st.environ key (Python.expand st value) }

/-- `Python.unsetenv`: `self._environ.pop(key)` — no default, so an absent
key raises `KeyError`. -/
def Python.unsetenv (st : PyInterp) (key : String) : Except PyErr PyInterp :=
  match alookup st.environ key with
  | none => .error (.keyError key)
  | some _ => .ok { st with environ := aerase st.environ key }

/-- `Python.prependenv`: join, expand, then either extend the split list of
the existing value (key already set by us, or inherited and respected) or
set anew.  `_get_env_list` raises `KeyError` when the branch is taken with
the key absent from the environ. -/
def Python.prependenv (st : PyInterp) (key : String) (value : EValue) :
    Except PyErr PyInterp :=
  let sep := envSep st.env_sep_map key
  let v := Python.expand st (joinIfSeq sep value)
  if key ∈ st.set_env_vars ∨
      (st.respect_parent_env = true ∧ (alookup st.environ key).isSome = true) then
    match alookup st.environ key with
    | none => .error (.keyError key)
    | some old =>
      .ok { st with environ := aset st.environ key (joinSep sep (v :: splitSep sep old)) }
  else
    .ok { st with environ := aset st.environ key v }

/-- `Python.appendenv`. -/
def Python.appendenv (st : PyInterp) (key : String) (value : EValue) :
    Except PyErr PyInterp :=
  let sep := envSep st.env_sep_map key
  let v := Python.expand st (joinIfSeq sep value)
  if key ∈ st.set_env_vars ∨
      (st.respect_parent_env = true ∧ (alookup st.environ key).isSome = true) then
    match alookup st.environ key with
    | none => .error (.keyError key)
    | some old =>
      .ok { st with environ := aset st.environ key (joinSep sep (splitSep sep old ++ [v])) }
  else
    .ok { st with environ := aset st.environ key v }

/-- `getattr(self, cmd.name)` followed by the call, for a `Python`
instance; `alias`, `comment` and `source` are no-ops, `info`/`error` print
(a side effect outside the state), and no `command` method exists. -/
def Python.dispatch (st : PyInterp) : Cmd → Except PyErr PyInterp
  | .setenv k v => .ok (Python.setenv st k v)
  | .unsetenv k => Python.unsetenv st k
  | .prependenv k v => Python.prependenv st k v
  | .appendenv k v => Python.appendenv st k v
  | .alias _ _ => .ok st
  | .info _ => .ok st
  | .error _ => .ok st
  | .comment _ => .ok st
  | .source _ => .ok st
  | .command _ => .error .attributeError

/-- `CommandInterpreter._execute` as inherited by `Python` (the emitted
lines are all `None`). -/
def Python.executeAux (st : PyInterp) : List Cmd → Except PyErr PyInterp
  | [] => .ok st
  | c :: rest =>
    match Python.dispatch st c with
    | .error e => .error e
    | .ok st2 =>
      let st3 := match cmdKey? c with
        | some k => { st2 with set_env_vars := setAdd st2.set_env_vars k }
        | none => st2
      Python.executeAux st3 rest

/-- `Python._execute(commands)`: run the shared loop, return the environ. -/
def Python.execute (st : PyInterp) (cmds : List Cmd) :
    Except PyErr (List (String × String)) :=
  match Python.executeAux st cmds with
  | .ok st2 => .ok st2.environ
  | .error e => .error e

/-- `value.replace('/', '\\\\')` — each `/` becomes two backslashes. -/
def winPathChars : List Char → List Char
  | [] => []
  | c :: rest =>
    if c = '/' then '\\' :: '\\' :: winPathChars rest
    else c :: winPathChars rest

def winPath (s : String) : String :=
  String.mk (winPathChars s.data)

/-- The Windows cmd interpreter's state.  `WinShell.__init__(set_global=False)`
only stores `set_global`; it never calls `CommandInterpreter.__init__`, so
the shared attributes `_respect_parent_env`, `_env_sep_map` and
`_set_env_vars` are absent from the instance, which `none` models.  Only
the default `set_global=False` construction is modelled: the
`set_global=True` branch of `setenv` depends on `system_env`/`user_env`
methods that exist only as comments in the class (and on
`subprocess.list2cmdline`). -/
structure WinShellInterp where
  set_env_vars : Option (List String)

/-- `WinShell()` with the default `set_global=False`. -/
def WinShell.new : WinShellInterp := ⟨none⟩

/-- `WinShell.setenv` (default `set_global=False` path): a sequence value
raises `AttributeError` at `value.replace` (lists have no `replace`);
a string value emits the `set` line with slashes doubled-backslashed. -/
def WinShell.setenv (key : String) (value : EValue) : Except PyErr String :=
  match value with
  | .seq _ => .error .attributeError
  | .str s => .ok ("set " ++ key ++ "=" ++ winPath s ++ "\n")

/-- `WinShell.unsetenv` (default `set_global=False` path). -/
def WinShell.unsetenv (key : String) : String :=
  "set " ++ key ++ "=\n"

/-- Dispatch for a `WinShell` instance: only `setenv` and `unsetenv` are
defined; the other command methods are the `CommandInterpreter` stubs that
raise `NotImplementedError`, and `command` has no method at all. -/
def WinShell.dispatch : Cmd → Except PyErr (Option String)
  | .setenv k v => (WinShell.setenv k v).map some
  | .unsetenv k => .ok (some (WinShell.unsetenv k))
  | .command _ => .error .attributeError
  | _ => .error .notImplementedError

/-- `CommandInterpreter._execute` as inherited by `WinShell`: the
`self._set_env_vars.add(...)` step raises `AttributeError` because the
constructor never created the attribute. -/
def WinShell.executeAux (w : WinShellInterp) (acc : List String) :
    List Cmd → Except PyErr (WinShellInterp × List String)
  | [] => .ok (w, acc)
  | c :: rest =>
    match WinShell.dispatch c with
    | .error e => .error e
    | .ok line =>
      match cmdKey? c with
      | some k =>
        match w.set_env_vars with
        | none => .error .attributeError
        | some s =>
          WinShell.executeAux ⟨some (setAdd s k)⟩ (match line with
            | some t => acc ++ [t]
            | none => acc) rest
      | none =>
        WinShell.executeAux w (match line with
          | some t => acc ++ [t]
          | none => acc) rest

/-- `WinShell()._execute(commands)`. -/
def WinShell.execute (cmds : List Cmd) : Except PyErr String :=
  match WinShell.executeAux WinShell.new [] cmds with
  | .ok (_, lines) => .ok (joinSep "\n" lines)
  | .error e => .error e

/-!
## Spec-side definitions

These two definitions transcribe wording of the specification (not the
source); the claim theorems compare them with the source-translated
definitions above.
-/

/-- The key shape the claims state for custom-namespace insertion:
`[_A-Za-z][_A-Za-z0-9]*(\.[_A-Za-z][_A-Za-z0-9]*)*`, i.e. one or more
nonempty dot-separated identifier segments. -/
def claimedDottedIdent (s : String) : Bool :=
  (splitDots s).all (fun seg =>
    match seg.data with
    | [] => false
    | c :: rest => idStart c && rest.all idCont)

/-- The shape of string the source's `ATTR_REG` body actually accepts: a
nonempty character list whose head is `[_A-Za-z]` and whose remaining
characters are identifier characters or dots. -/
def looseKeyShape (l : List Char) : Prop :=
  ∃ c rest, l = c :: rest ∧ idStart c = true ∧ rest.all isBracedChar = true

/-!
## Auxiliary lemmas
-/

theorem idStart_idCont {c : Char} (h : idStart c = true) : idCont c = true := by
  simp [idCont, h]

/-- The greedy segment recognizer, run after stripping an identifier run,
accepts exactly the lists whose characters are all identifier characters or
dots. -/
theorem segsMatch_dropWhile (l : List Char) :
    segsMatch (l.dropWhile idCont) = l.all isBracedChar := by
  induction l with
  | nil => simp [segsMatch]
  | cons c rest ih =>
    rw [List.dropWhile_cons]
    by_cases h : idCont c = true
    · rw [if_pos h, ih, List.all_cons]
      have hb : isBracedChar c = true := by simp [isBracedChar, h]
      rw [hb, Bool.true_and]
    · rw [if_neg h, segsMatch, ih, List.all_cons]
      have hs : idStart c = false := by
        cases hi : idStart c
        · rfl
        · exact absurd (idStart_idCont hi) h
      by_cases hd : c = '.'
      · simp [hd, isBracedChar]
      · have hb : isBracedChar c = false := by
          simp only [isBracedChar, Bool.or_eq_false_iff]
          exact ⟨by simpa using h, by simpa using hd⟩
        simp [hd, hs, hb]

/-- Characterization of the full `ATTR_REG` body language. -/
theorem bracedFullMatch_iff (l : List Char) :
    bracedFullMatch l = true ↔ looseKeyShape l := by
  cases l with
  | nil => simp [bracedFullMatch, looseKeyShape]
  | cons c rest =>
    rw [bracedFullMatch, segsMatch_dropWhile, Bool.and_eq_true]
    constructor
    · rintro ⟨h1, h2⟩
      exact ⟨c, rest, rfl, h1, h2⟩
    · rintro ⟨c2, rest2, heq, h1, h2⟩
      cases heq
      exact ⟨h1, h2⟩

/-- Characterization of what `AttrDict.ATTR_REG.match` accepts (the `'$'`
anchor also matches before one trailing newline). -/
theorem attrRegMatch_iff (s : String) :
    attrRegMatch s = true ↔
      (looseKeyShape s.data ∨
        (s.data.getLast? = some '\n' ∧ looseKeyShape s.data.dropLast)) := by
  rw [attrRegMatch, reDollarFullMatch, Bool.or_eq_true, Bool.and_eq_true,
    bracedFullMatch_iff, bracedFullMatch_iff, decide_eq_true_eq]

/-- Env-template expansion copies every character when no `$` occurs. -/
theorem envScan_id (m : List (String × String)) (l : List Char)
    (h : ∀ c ∈ l, c ≠ '$') : envScan m .top l = l := by
  induction l with
  | nil => rfl
  | cons c rest ih =>
    have hc : ¬(c = '$') := h c (List.mem_cons_self ..)
    rw [envScan, if_neg hc, ih (fun d hd => h d (List.mem_cons_of_mem _ hd))]

/-- Custom-template expansion copies every character when no `{` occurs
(whatever the previous character was). -/
theorem customScan_id (custom : AttrDict) (l : List Char)
    (h : ∀ c ∈ l, c ≠ lbrace) :
    ∀ prev, customScan custom (.normal prev) l = l := by
  induction l with
  | nil => intro prev; rfl
  | cons c rest ih =>
    intro prev
    have hc : (decide (c = lbrace) && decide (prev ≠ some '$')) = false := by
      have : ¬(c = lbrace) := h c (List.mem_cons_self ..)
      simp [this]
    rw [customScan, hc]
    simp only [Bool.false_eq_true, if_false]
    rw [ih (fun d hd => h d (List.mem_cons_of_mem _ hd)) (some c)]

theorem mem_setAdd_self (s : List String) (k : String) : k ∈ setAdd s k := by
  unfold setAdd
  split
  · assumption
  · exact List.mem_append_right _ (List.mem_singleton.mpr rfl)

theorem mem_setAdd_mono {s : List String} {K : String} (h : K ∈ s)
    (k : String) : K ∈ setAdd s k := by
  unfold setAdd
  split
  · exact h
  · exact List.mem_append_left _ h

/-- Once a command whose key the shared `_execute` loop records has been
executed, that key is in `_set_env_vars` of every later state (shell
emitters). -/
theorem shellExecuteAux_mem (disp : SHInterp → Cmd → Except PyErr (Option String)) :
    ∀ (cmds : List Cmd) (it : SHInterp) (acc : List String) (it2 : SHInterp)
      (out : List String) (K : String),
      shellExecuteAux disp it acc cmds = .ok (it2, out) →
      ((∃ c ∈ cmds, cmdKey? c = some K) ∨ K ∈ it.set_env_vars) →
      K ∈ it2.set_env_vars := by
  intro cmds
  induction cmds with
  | nil =>
    intro it acc it2 out K h hk
    rw [shellExecuteAux] at h
    cases h
    rcases hk with ⟨c, hc, _⟩ | hm
    · exact absurd hc (List.not_mem_nil c)
    · exact hm
  | cons c rest ih =>
    intro it acc it2 out K h hk
    rw [shellExecuteAux] at h
    cases hd : disp it c with
    | error e => rw [hd] at h; exact absurd h (by simp)
    | ok line =>
      rw [hd] at h
      cases hck : cmdKey? c with
      | some k =>
        rw [hck] at h
        refine ih _ _ _ _ _ h ?_
        rcases hk with ⟨c0, hc0, hkey⟩ | hm
        · rcases List.mem_cons.mp hc0 with rfl | hmem
          · right
            rw [hck] at hkey
            cases hkey
            exact mem_setAdd_self ..
          · exact Or.inl ⟨c0, hmem, hkey⟩
        · exact Or.inr (mem_setAdd_mono hm k)
      | none =>
        rw [hck] at h
        refine ih _ _ _ _ _ h ?_
        rcases hk with ⟨c0, hc0, hkey⟩ | hm
        · rcases List.mem_cons.mp hc0 with rfl | hmem
          · rw [hck] at hkey; cases hkey
          · exact Or.inl ⟨c0, hmem, hkey⟩
        · exact Or.inr hm

/-- No `Python` command method writes `_set_env_vars`; only the shared loop
does. -/
theorem pythonDispatch_set_env_vars {st stm : PyInterp} : {c : Cmd} →
    Python.dispatch st c = .ok stm → stm.set_env_vars = st.set_env_vars
  | .setenv _ _, h => by cases h; rfl
  | .unsetenv _, h => by
    simp only [Python.dispatch, Python.unsetenv] at h
    split at h
    · exact absurd h (by simp)
    · cases h; rfl
  | .prependenv _ _, h => by
    simp only [Python.dispatch, Python.prependenv] at h
    split at h
    · split at h
      · exact absurd h (by simp)
      · cases h; rfl
    · cases h; rfl
  | .appendenv _ _, h => by
    simp only [Python.dispatch, Python.appendenv] at h
    split at h
    · split at h
      · exact absurd h (by simp)
      · cases h; rfl
    · cases h; rfl
  | .alias _ _, h => by cases h; rfl
  | .info _, h => by cases h; rfl
  | .error _, h => by cases h; rfl
  | .comment _, h => by cases h; rfl
  | .source _, h => by cases h; rfl
  | .command _, h => absurd h (by simp [Python.dispatch])

/-- Same invariant for the live executor's inherited loop. -/
theorem pythonExecuteAux_mem :
    ∀ (cmds : List Cmd) (st st2 : PyInterp) (K : String),
      Python.executeAux st cmds = .ok st2 →
      ((∃ c ∈ cmds, cmdKey? c = some K) ∨ K ∈ st.set_env_vars) →
      K ∈ st2.set_env_vars := by
  intro cmds
  induction cmds with
  | nil =>
    intro st st2 K h hk
    rw [Python.executeAux] at h
    cases h
    rcases hk with ⟨c, hc, _⟩ | hm
    · exact absurd hc (List.not_mem_nil c)
    · exact hm
  | cons c rest ih =>
    intro st st2 K h hk
    rw [Python.executeAux] at h
    cases hd : Python.dispatch st c with
    | error e => rw [hd] at h; exact absurd h (by simp)
    | ok stm =>
      rw [hd] at h
      cases hck : cmdKey? c with
      | some k =>
        rw [hck] at h
        refine ih _ _ _ h ?_
        rcases hk with ⟨c0, hc0, hkey⟩ | hm
        · rcases List.mem_cons.mp hc0 with rfl | hmem
          · right
            rw [hck] at hkey
            cases hkey
            exact mem_setAdd_self ..
          · exact Or.inl ⟨c0, hmem, hkey⟩
        · refine Or.inr ?_
          rw [pythonDispatch_set_env_vars hd]
          exact mem_setAdd_mono hm k
      | none =>
        rw [hck] at h
        refine ih _ _ _ h ?_
        rcases hk with ⟨c0, hc0, hkey⟩ | hm
        · rcases List.mem_cons.mp hc0 with rfl | hmem
          · rw [hck] at hkey; cases hkey
          · exact Or.inl ⟨c0, hmem, hkey⟩
        · refine Or.inr ?_
          rw [pythonDispatch_set_env_vars hd]
          exact hm

/-!
## Claim C1 — record-time custom expansion with env-form preservation
-/

/-- The routing dict of scenario C1: custom namespace `V1 -> "1"`,
`V2 -> "2"`. -/
def rdC1 : RoutingDict :=
  RoutingDict.new [("V1", RexVal.vstr "1"), ("V2", RexVal.vstr "2")]

/-- `rdC1` after the DSL assignment `SHORT = "!V1.!V2"`. -/
def rdC1a : RoutingDict := rdC1.setitem "SHORT" (.str "!V1.!V2")

/-- `rdC1a` after the DSL call `setenv("APP", "/x/${SHORT}")`. -/
def rdC1b : RoutingDict := rdC1a.setenvCall "APP" (.str "/x/${SHORT}")

/-- Claim C1 fails on the code: after `SHORT = "!V1.!V2"` no local variable
`SHORT` exists at all (the ALL-CAPS name routes to the environment view),
and the recorded value is the unexpanded `"!V1.!V2"` (the active
`CustomExpand` pattern substitutes only braced `{dotted.name}` groups, so
unbraced `!V1` is not a placeholder), not `"1.2"`. -/
theorem C1_counterexample :
    alookup rdC1a.vars "SHORT" = none ∧
    rdC1a.commands = [Cmd.setenv "SHORT" (EValue.str "!V1.!V2")] :=
  ⟨rfl, rfl⟩

/-- Claim C1 (amended): with custom namespace `{V1: "1", V2: "2"}`, the DSL
assignment `SHORT = "!V1.!V2"` routes to the environment view (ALL-CAPS
key) and records `Setenv("SHORT", "!V1.!V2")` with the value unchanged —
unbraced `!NAME` is not substituted and no local variable is stored — and
the subsequent `setenv("APP", "/x/${SHORT}")` records a `Setenv` whose
value is the literal `"/x/${SHORT}"`: the `$`-form survives recording
unexpanded. -/
theorem C1_amended :
    rdC1b.commands =
      [Cmd.setenv "SHORT" (EValue.str "!V1.!V2"),
       Cmd.setenv "APP" (EValue.str "/x/${SHORT}")] ∧
    alookup rdC1b.vars "SHORT" = none :=
  ⟨rfl, rfl⟩

/-!
## Claim C2 — `SH` conditional blocks under `respect_parent_env=true`
-/

/-- Claim C2 names a code bug: for the POSIX `sh` emitter with
`respect_parent_env=true` and an untouched key, the emitted conditional
block has its branches swapped relative to the claim (and to the
commented-out one-liner right above it in the source): the branch taken
when `$K` IS set exports the bare value, and the branch taken when `$K` is
NOT set exports the extend form (which then references the unset `$K`).
This theorem evaluates the code at the failing input. -/
theorem C2_eval :
    SH.prependenv (mkShell true) "K" (.str "V") =
      "if [[ $K ]]; then\n    export K=\"V\"\nelse\n    export K=\"V:$K\"\nfi" ∧
    SH.appendenv (mkShell true) "K" (.str "V") =
      "if [[ $K ]]; then\n    export K=\"V\"\nelse\n    export K=\"$K:V\"\nfi" :=
  ⟨rfl, rfl⟩

/-!
## Claim C3 — attribute traversal in custom-template expansion
-/

/-- The custom namespace of scenario C3: `thing.name -> "n"` and `thing` an
object with attribute `bar = "v"`. -/
def customC3 : AttrDict :=
  ⟨[("thing.name", RexVal.vstr "n"),
    ("thing", RexVal.obj [("bar", RexVal.vstr "v")])]⟩

/-- Claim C3 fails on the code: the expansion does not yield `"n and v"`
(the `!` delimiter is not part of the active pattern, so it survives in the
output). -/
theorem C3_counterexample :
    customSafeSubst customC3 "!\x7bthing.name\x7d and !\x7bthing.bar\x7d" ≠
      "n and v" := by
  decide

/-- Claim C3 (amended): expanding `"!{thing.name} and !{thing.bar}"` in
that namespace yields `"!n and !v"` — the braced groups are substituted
(with `thing.bar` resolved by longest-prefix lookup plus attribute
traversal), but the preceding `!` characters are not consumed by the
pattern and remain in the output. -/
theorem C3_amended :
    customSafeSubst customC3 "!\x7bthing.name\x7d and !\x7bthing.bar\x7d" =
      "!n and !v" :=
  rfl

/-!
## Claim C4 — expansion as identity on delimiter-free strings
-/

/-- Claim C4 fails on the code: `"{a}"` contains no `$` and no `!`, yet
custom-template expansion changes it — the braced group matches without any
`!`, its lookup misses, and the Python 2 `safe_substitute` fallback
prepends the delimiter, producing `"!{a}"`. -/
theorem C4_counterexample :
    (∀ c ∈ "\x7ba\x7d".data, c ≠ '$') ∧
    (∀ c ∈ "\x7ba\x7d".data, c ≠ '!') ∧
    customSafeSubst ⟨[]⟩ "\x7ba\x7d" ≠ "\x7ba\x7d" := by
  refine ⟨by decide, by decide, by decide⟩

/-- Claim C4 (amended): for every string containing no `$`, no `!` and no
`{`, both the env-template expansion (over any environment) and the
custom-template expansion (over any custom namespace) return the string
unchanged. -/
theorem C4_amended (m : List (String × String)) (custom : AttrDict)
    (s : String) (h1 : ∀ c ∈ s.data, c ≠ '$') (h2 : ∀ c ∈ s.data, c ≠ '!')
    (h3 : ∀ c ∈ s.data, c ≠ lbrace) :
    envSafeSubst m s = s ∧ customSafeSubst custom s = s := by
  constructor
  · show String.mk (envScan m .top s.data) = s
    rw [envScan_id m s.data h1]
  · show String.mk (customScan custom (.normal none) s.data) = s
    rw [customScan_id custom s.data h3 none]

/-- Witness for `C4_amended` at `s = "abc"`. -/
theorem C4_witness :
    envSafeSubst [] "abc" = "abc" ∧ customSafeSubst ⟨[]⟩ "abc" = "abc" :=
  C4_amended [] ⟨[]⟩ "abc" (by decide) (by decide) (by decide)

/-!
## Claim C5 — live executor `unsetenv` on an absent key
-/

/-- Claim C5 names a code bug: `Python.unsetenv` is `self._environ.pop(key)`
with no default, so an absent key raises `KeyError` instead of being
tolerated as the spec requires (the shell emitters' `unset K` is silent on
absent keys).  This theorem evaluates the code at the failing input: the
empty environment and key `"X"`, under either parent-env policy. -/
theorem C5_eval :
    Python.unsetenv (Python.new true []) "X" = .error (.keyError "X") ∧
    Python.unsetenv (Python.new false []) "X" = .error (.keyError "X") :=
  ⟨rfl, rfl⟩

/-!
## Claim C6 — attribute-namespace longest-prefix law
-/

/-- Claim C6: with the backing map storing only `"a.b" -> x` where `x` has
attribute `c = y`, lookup of `"a.b.c"` returns `y`, lookup of `"a.b"`
returns `x`, and lookup of `"a"` fails with the unknown-key error. -/
theorem C6_thm (y : RexVal) :
    AttrDict.getitem ⟨[("a.b", RexVal.obj [("c", y)])]⟩ "a.b.c" = .ok y ∧
    AttrDict.getitem ⟨[("a.b", RexVal.obj [("c", y)])]⟩ "a.b" =
      .ok (RexVal.obj [("c", y)]) ∧
    AttrDict.getitem ⟨[("a.b", RexVal.obj [("c", y)])]⟩ "a" =
      .error (.keyError "a") :=
  ⟨rfl, rfl, rfl⟩

/-!
## Claim C7 — attribute-namespace insertion validation
-/

/-- Claim C7 fails on the code: the actual `ATTR_REG` body
`([_a-z][_a-z0-9]*)([._a-z][_a-z0-9]*)*` lets a segment consist of a bare
dot, so `"a."` and `"a..b"` — rejected by the claimed dotted-identifier
grammar — are accepted and stored. -/
theorem C7_counterexample :
    AttrDict.setitem ⟨[]⟩ (PyKey.str "a.") (RexVal.vstr "x") =
      .ok ⟨[("a.", RexVal.vstr "x")]⟩ ∧
    claimedDottedIdent "a." = false ∧
    AttrDict.setitem ⟨[]⟩ (PyKey.str "a..b") (RexVal.vstr "x") =
      .ok ⟨[("a..b", RexVal.vstr "x")]⟩ ∧
    claimedDottedIdent "a..b" = false := by
  have h1 : attrRegMatch "a." = true :=
    (attrRegMatch_iff "a.").mpr (Or.inl ⟨'a', ['.'], rfl, by decide, by decide⟩)
  have h2 : attrRegMatch "a..b" = true :=
    (attrRegMatch_iff "a..b").mpr
      (Or.inl ⟨'a', ['.', '.', 'b'], rfl, by decide, by decide⟩)
  refine ⟨?_, by decide, ?_, by decide⟩
  · simp [AttrDict.setitem, h1, aset]
  · simp [AttrDict.setitem, h2, aset]

/-- Claim C7 (amended): insertion into the attribute namespace succeeds
exactly when the key is a string accepted by the source's `ATTR_REG`: a
nonempty string whose first character is `[_A-Za-z]` and whose remaining
characters are drawn from `[_A-Za-z0-9.]` (one trailing newline is also
tolerated by the regex `$` anchor) — a grammar looser than the claimed
dotted-identifier one, accepting e.g. `"a."` and `"a..b"`.  Non-string keys
raise `TypeError`, rejected strings raise `ValueError`. -/
theorem C7_amended (d : AttrDict) (key : PyKey) (value : RexVal) :
    (∃ d2, AttrDict.setitem d key value = .ok d2) ↔
      (∃ s, key = PyKey.str s ∧
        (looseKeyShape s.data ∨
          (s.data.getLast? = some '\n' ∧ looseKeyShape s.data.dropLast))) := by
  cases key with
  | nonString =>
    constructor
    · rintro ⟨d2, h⟩
      exact absurd h (by simp [AttrDict.setitem])
    · rintro ⟨s, h, _⟩
      exact PyKey.noConfusion h
  | str s =>
    rw [AttrDict.setitem]
    constructor
    · rintro ⟨d2, h⟩
      refine ⟨s, rfl, ?_⟩
      rw [← attrRegMatch_iff]
      by_contra hb
      rw [if_neg (by simpa using hb)] at h
      exact Except.noConfusion h
    · rintro ⟨s2, heq, hsh⟩
      cases heq
      rw [if_pos ((attrRegMatch_iff s).mpr hsh)]
      exact ⟨_, rfl⟩

/-!
## Claim C8 — the already-set-by-us rule
-/

/-- Claim C8: for every interpreter implementing the environment-mutating
commands, once a key has been recorded into `_set_env_vars` by an earlier
`SETENV`/`PREPENDENV`/`APPENDENV` of the shared `_execute` loop, every
subsequent `PREPENDENV`/`APPENDENV` of that key takes the extend branch —
prepend/append with the separator onto the existing value — regardless of
`respect_parent_env`.  Conjuncts: (1) the shared loop (shell emitters, any
dispatch) puts every executed such key into `_set_env_vars`; (2) `SH` and
`CSH` then emit the extend form for an arbitrary state, in particular for
either value of `respect_parent_env`; (3) the same loop invariant for the
live executor; (4) the live executor then extends the split of the
existing value. -/
theorem C8_thm :
    (∀ (disp : SHInterp → Cmd → Except PyErr (Option String)) cmds it acc
        it2 out K,
      shellExecuteAux disp it acc cmds = .ok (it2, out) →
      (∃ c ∈ cmds, cmdKey? c = some K) → K ∈ it2.set_env_vars) ∧
    (∀ (it : SHInterp) K v, K ∈ it.set_env_vars →
      SH.prependenv it K v =
        "export " ++ K ++ "=\"" ++ joinIfSeq (envSep it.env_sep_map K) v ++
          envSep it.env_sep_map K ++ "$" ++ K ++ "\"" ∧
      SH.appendenv it K v =
        "export " ++ K ++ "=\"$" ++ K ++ envSep it.env_sep_map K ++
          joinIfSeq (envSep it.env_sep_map K) v ++ "\"" ∧
      CSH.prependenv it K v =
        "setenv " ++ K ++ "=\"" ++ joinIfSeq (envSep it.env_sep_map K) v ++
          envSep it.env_sep_map K ++ "$" ++ K ++ "\"" ∧
      CSH.appendenv it K v =
        "setenv " ++ K ++ "=\"$" ++ K ++ envSep it.env_sep_map K ++
          joinIfSeq (envSep it.env_sep_map K) v ++ "\"") ∧
    (∀ cmds (st st2 : PyInterp) K,
      Python.executeAux st cmds = .ok st2 →
      (∃ c ∈ cmds, cmdKey? c = some K) → K ∈ st2.set_env_vars) ∧
    (∀ (st : PyInterp) K v old, K ∈ st.set_env_vars →
      alookup st.environ K = some old →
      Python.prependenv st K v =
        .ok { st with
              environ := aset st.environ K
                (joinSep (envSep st.env_sep_map K)
                  (Python.expand st (joinIfSeq (envSep st.env_sep_map K) v) ::
                    splitSep (envSep st.env_sep_map K) old)) } ∧
      Python.appendenv st K v =
        .ok { st with
              environ := aset st.environ K
                (joinSep (envSep st.env_sep_map K)
                  (splitSep (envSep st.env_sep_map K) old ++
                    [Python.expand st (joinIfSeq (envSep st.env_sep_map K) v)])) }) := by
  refine ⟨?_, ?_, ?_, ?_⟩
  · intro disp cmds it acc it2 out K h hex
    exact shellExecuteAux_mem disp cmds it acc it2 out K h (Or.inl hex)
  · intro it K v h
    refine ⟨?_, ?_, ?_, ?_⟩ <;>
      simp only [SH.prependenv, SH.appendenv, CSH.prependenv, CSH.appendenv,
        if_pos h]
  · intro cmds st st2 K h hex
    exact pythonExecuteAux_mem cmds st st2 K h (Or.inl hex)
  · intro st K v old h ho
    constructor
    · rw [Python.prependenv, if_pos (Or.inl h), ho]
    · rw [Python.appendenv, if_pos (Or.inl h), ho]

/-- Witness for `C8_thm`, instantiating every conjunct at concrete inputs:
a one-command log `setenv K a` executed by `SH` (respect flag on) and by
the live executor puts `K` in the set; the extend forms then fire for a
later prepend of `K`. -/
theorem C8_witness :
    ("K" ∈ (⟨true, [], ["K"]⟩ : SHInterp).set_env_vars) ∧
    (SH.prependenv ⟨true, [], ["K"]⟩ "K" (.str "b") =
      "export " ++ "K" ++ "=\"" ++ joinIfSeq (envSep [] "K") (.str "b") ++
        envSep [] "K" ++ "$" ++ "K" ++ "\"") ∧
    ("K" ∈ (⟨true, [], ["K"], [("K", "a")]⟩ : PyInterp).set_env_vars) ∧
    (Python.prependenv ⟨true, [], ["K"], [("K", "a")]⟩ "K" (.str "b") =
      .ok { respect_parent_env := true, env_sep_map := [],
            set_env_vars := ["K"],
            environ := aset [("K", "a")] "K"
              (joinSep (envSep [] "K")
                (Python.expand ⟨true, [], ["K"], [("K", "a")]⟩
                  (joinIfSeq (envSep [] "K") (.str "b")) ::
                  splitSep (envSep [] "K") "a")) }) :=
  ⟨C8_thm.1 SH.dispatch [Cmd.setenv "K" (.str "a")] (mkShell true) []
      ⟨true, [], ["K"]⟩ ["export K=\"a\""] "K" rfl
      ⟨Cmd.setenv "K" (.str "a"), by decide, rfl⟩,
   (C8_thm.2.1 ⟨true, [], ["K"]⟩ "K" (.str "b") (by decide)).1,
   C8_thm.2.2.1 [Cmd.setenv "K" (.str "a")] (Python.new true [])
      ⟨true, [], ["K"], [("K", "a")]⟩ "K" rfl
      ⟨Cmd.setenv "K" (.str "a"), by decide, rfl⟩,
   (C8_thm.2.2.2 ⟨true, [], ["K"], [("K", "a")]⟩ "K" (.str "b") "a"
      (by decide) rfl).1⟩

/-!
## Claim C9 — sequence-join equivalence
-/

/-- Claim C9 fails for the Windows cmd interpreter: its `setenv` does not
join sequence values — `value.replace` raises `AttributeError` on a list —
so a sequence is not treated like the σ-joined string. -/
theorem C9_counterexample :
    WinShell.setenv "PATH" (.seq ["a", "b"]) ≠
      WinShell.setenv "PATH" (.str (joinSep os_pathsep ["a", "b"])) := by
  intro h
  exact Except.noConfusion h

/-- Claim C9 (amended): for the `SH`, `CSH` and live-Python interpreters,
every `SETENV`/`PREPENDENV`/`APPENDENV` treats a sequence value exactly as
the single string obtained by joining it with the key's separator (from the
separator map, defaulting to the OS path separator); the Windows cmd
interpreter's `setenv` instead fails on sequence values. -/
theorem C9_amended (it : SHInterp) (st : PyInterp) (K : String)
    (xs : List String) :
    SH.setenv it K (.seq xs) =
      SH.setenv it K (.str (joinSep (envSep it.env_sep_map K) xs)) ∧
    SH.prependenv it K (.seq xs) =
      SH.prependenv it K (.str (joinSep (envSep it.env_sep_map K) xs)) ∧
    SH.appendenv it K (.seq xs) =
      SH.appendenv it K (.str (joinSep (envSep it.env_sep_map K) xs)) ∧
    CSH.setenv it K (.seq xs) =
      CSH.setenv it K (.str (joinSep (envSep it.env_sep_map K) xs)) ∧
    CSH.prependenv it K (.seq xs) =
      CSH.prependenv it K (.str (joinSep (envSep it.env_sep_map K) xs)) ∧
    CSH.appendenv it K (.seq xs) =
      CSH.appendenv it K (.str (joinSep (envSep it.env_sep_map K) xs)) ∧
    Python.setenv st K (.seq xs) =
      Python.setenv st K (.str (joinSep (envSep st.env_sep_map K) xs)) ∧
    Python.prependenv st K (.seq xs) =
      Python.prependenv st K (.str (joinSep (envSep st.env_sep_map K) xs)) ∧
    Python.appendenv st K (.seq xs) =
      Python.appendenv st K (.str (joinSep (envSep st.env_sep_map K) xs)) :=
  ⟨rfl, rfl, rfl, rfl, rfl, rfl, rfl, rfl, rfl⟩

/-!
## Claim C10 — the Windows interpreter's uninitialized shared state
-/

/-- Executing any suffix after a `Setenv` never matters: from the
constructor state (`_set_env_vars` absent) any log containing a `Setenv`
fails. -/
theorem winExecuteAux_err :
    ∀ (cmds : List Cmd) (acc : List String) (k : String) (v : EValue),
      Cmd.setenv k v ∈ cmds →
      ∃ e, WinShell.executeAux ⟨none⟩ acc cmds = .error e := by
  intro cmds
  induction cmds with
  | nil =>
    intro acc k v h
    exact absurd h (List.not_mem_nil _)
  | cons c rest ih =>
    intro acc k v h
    match c with
    | .setenv k2 v2 =>
      cases v2
      · exact ⟨.attributeError, rfl⟩
      · exact ⟨.attributeError, rfl⟩
    | .unsetenv k2 =>
      rcases List.mem_cons.mp h with hc | hm
      · exact Cmd.noConfusion hc
      · exact ih (acc ++ [WinShell.unsetenv k2]) k v hm
    | .prependenv k2 v2 => exact ⟨.notImplementedError, rfl⟩
    | .appendenv k2 v2 => exact ⟨.notImplementedError, rfl⟩
    | .alias k2 v2 => exact ⟨.notImplementedError, rfl⟩
    | .info v2 => exact ⟨.notImplementedError, rfl⟩
    | .error v2 => exact ⟨.notImplementedError, rfl⟩
    | .comment v2 => exact ⟨.notImplementedError, rfl⟩
    | .source v2 => exact ⟨.notImplementedError, rfl⟩
    | .command v2 => exact ⟨.attributeError, rfl⟩

/-- Claim C10: `WinShell.__init__` never calls the base constructor, so the
shared interpreter state is missing; when the shared `_execute` loop runs a
`SETENV` it raises `AttributeError` at `self._set_env_vars.add(...)`
(conjunct 1: a log starting with any `Setenv` fails with exactly
`AttributeError` — the `setenv` method itself succeeded for a string value
and its output is discarded); and any log containing a `Setenv` anywhere
fails (conjunct 2 — commands before it may already raise
`NotImplementedError`, but execution never completes). -/
theorem C10_thm :
    (∀ (k : String) (v : EValue) rest,
      WinShell.execute (Cmd.setenv k v :: rest) = .error .attributeError) ∧
    (∀ cmds (k : String) (v : EValue), Cmd.setenv k v ∈ cmds →
      ∃ e, WinShell.execute cmds = .error e) := by
  constructor
  · intro k v rest
    cases v <;> rfl
  · intro cmds k v h
    obtain ⟨e, he⟩ := winExecuteAux_err cmds [] k v h
    refine ⟨e, ?_⟩
    rw [WinShell.execute]
    rw [show WinShell.new = (⟨none⟩ : WinShellInterp) from rfl, he]

/-- Witness for `C10_thm` at concrete logs. -/
theorem C10_witness :
    WinShell.execute [Cmd.setenv "K" (EValue.str "x")] =
      .error .attributeError ∧
    ∃ e, WinShell.execute
      [Cmd.unsetenv "A", Cmd.setenv "K" (EValue.str "x")] = .error e :=
  ⟨C10_thm.1 "K" (EValue.str "x") [],
   C10_thm.2 [Cmd.unsetenv "A", Cmd.setenv "K" (EValue.str "x")] "K"
     (EValue.str "x") (by decide)⟩

end Rex
